import Mathlib

/-!
Verification of the Mergington High School activity-directory service
(`src/app.py`): a FastAPI application backed by a MongoDB collection of
activity documents.  The store is embedded as a list of documents, each a
storage id (`oid`, standing for MongoDB's `_id`) together with the activity
record.  `find_one` on a name filter returns the first matching document;
`update_one` with `$push` / `$pull` modifies the first matching document and
reports how many documents were modified.  Each HTTP handler is embedded as
a state-passing function returning the store after the request together with
either an error (the raised `HTTPException`) or the success payload.
-/

namespace Mergington

/-- An activity record as stored in the `activities` collection
(fields of the dictionaries in `initial_activities`). -/
structure Activity where
  name : String
  description : String
  schedule : String
  max_participants : Nat
  participants : List String
deriving DecidableEq, Repr

/-- A document in the collection: MongoDB's internal `_id` plus the record. -/
structure Stored where
  oid : Nat
  data : Activity
deriving DecidableEq, Repr

/-- The `activities` collection. -/
abbrev Store := List Stored

/-- The call `activities_collection.find_one` on a name filter: first
document whose `name` field equals `n`. -/
def findOne : Store → String → Option Stored
  | [], _ => none
  | d :: ds, n => if d.data.name = n then some d else findOne ds n

/-- Rewrite the `participants` field of the first document whose name
matches, leaving all other documents untouched (the document-level effect
of `update_one` on a name filter). -/
def updateFirst : Store → String → (List String → List String) → Store
  | [], _, _ => []
  | d :: ds, n, f =>
    if d.data.name = n then
      { d with data := { d.data with participants := f d.data.participants } } :: ds
    else
      d :: updateFirst ds n f

/-- The call `update_one` with a push of `e` onto `participants`: appends `e`
to the first matching document's participants; `modified_count` is 1 exactly
when a document matched (a push always changes the document). -/
def updateOnePush (s : Store) (n e : String) : Store × Nat :=
  (updateFirst s n (fun p => p ++ [e]),
   match findOne s n with
   | none => 0
   | some _ => 1)

/-- The call `update_one` with a pull of `e` from `participants`: removes every
occurrence of `e` from the first matching document's participants;
`modified_count` is 1 exactly when a document matched and actually changed,
i.e. contained `e`. -/
def updateOnePull (s : Store) (n e : String) : Store × Nat :=
  (updateFirst s n (fun p => p.filter (fun x => x ≠ e)),
   match findOne s n with
   | none => 0
   | some d => if e ∈ d.data.participants then 1 else 0)

/-- The error taxonomy: each `HTTPException` raised by the handlers. -/
inductive ApiError where
  | notFound
  | alreadySignedUp
  | maxReached
  | notRegistered
  | updateFailed
deriving DecidableEq, Repr

/-- The `status_code` of each raised `HTTPException`. -/
def ApiError.status : ApiError → Nat
  | .notFound => 404
  | .alreadySignedUp => 400
  | .maxReached => 400
  | .notRegistered => 400
  | .updateFailed => 500

/-- The `detail` string of each raised `HTTPException`. -/
def ApiError.detail : ApiError → String
  | .notFound => "Activity not found"
  | .alreadySignedUp => "Student already signed up"
  | .maxReached => "Max participants reached"
  | .notRegistered => "Student not registered"
  | .updateFailed => "Failed to update activity"

/-- The write step of the signup handler (the code after the validations):
push the email onto the matching document and fail with 500 when the write
reports zero modified documents.  The store it receives is whatever the
database holds when `update_one` runs. -/
def signupWrite (s : Store) (activity_name email : String) :
    Store × Except ApiError String :=
  let result := updateOnePush s activity_name email
  if result.2 = 0 then
    (result.1, .error .updateFailed)
  else
    (result.1, .ok ("Signed up " ++ email ++ " for " ++ activity_name))

/-- The handler of POST signup requests: look the activity up, reject
a duplicate signup, reject a full activity, then run the write step.
Returns the store after the request together with the response. -/
def signup_for_activity (s : Store) (activity_name email : String) :
    Store × Except ApiError String :=
  match findOne s activity_name with
  | none => (s, .error .notFound)
  | some activity =>
    if email ∈ activity.data.participants then
      (s, .error .alreadySignedUp)
    else if activity.data.participants.length ≥ activity.data.max_participants then
      (s, .error .maxReached)
    else
      signupWrite s activity_name email

/-- The write step of the unregister handler: pull the email from the
matching document and fail with 500 when the write reports zero modified
documents. -/
def unregisterWrite (s : Store) (activity_name email : String) :
    Store × Except ApiError String :=
  let result := updateOnePull s activity_name email
  if result.2 = 0 then
    (result.1, .error .updateFailed)
  else
    (result.1, .ok ("Unregistered " ++ email ++ " from " ++ activity_name))

/-- The handler of POST unregister requests: look the activity up,
reject an email that is not registered, then run the write step. -/
def unregister_from_activity (s : Store) (activity_name email : String) :
    Store × Except ApiError String :=
  match findOne s activity_name with
  | none => (s, .error .notFound)
  | some activity =>
    if email ∉ activity.data.participants then
      (s, .error .notRegistered)
    else
      unregisterWrite s activity_name email

/-- Python dictionary assignment `m[k] = v`: replace the value in place when
the key is present, otherwise append the new entry. -/
def dictInsert : List (String × Activity) → String → Activity → List (String × Activity)
  | [], k, v => [(k, v)]
  | (k', v') :: rest, k, v =>
    if k' = k then (k, v) :: rest else (k', v') :: dictInsert rest k v

/-- The handler of GET activities requests: iterate over every document, drop the `_id` field and
key the record by its `name` field.  Reads the store without changing it. -/
def get_activities (s : Store) : List (String × Activity) :=
  s.foldl (fun m d => dictInsert m d.data.name d.data) []

/-- The `initial_activities` literal used for seeding, in source order. -/
def initial_activities : List Activity :=
  [ { name := "Chess Club",
      description := "Learn strategies and compete in chess tournaments",
      schedule := "Fridays, 3:30 PM - 5:00 PM",
      max_participants := 12,
      participants := ["michael@mergington.edu", "daniel@mergington.edu"] },
    { name := "Programming Class",
      description := "Learn programming fundamentals and build software projects",
      schedule := "Tuesdays and Thursdays, 3:30 PM - 4:30 PM",
      max_participants := 20,
      participants := ["emma@mergington.edu", "sophia@mergington.edu"] },
    { name := "Gym Class",
      description := "Physical education and sports activities",
      schedule := "Mondays, Wednesdays, Fridays, 2:00 PM - 3:00 PM",
      max_participants := 30,
      participants := ["john@mergington.edu", "olivia@mergington.edu"] },
    { name := "Soccer Team",
      description := "Join the school soccer team and compete in local leagues",
      schedule := "Wednesdays and Fridays, 4:00 PM - 5:30 PM",
      max_participants := 18,
      participants := ["lucas@mergington.edu", "mia@mergington.edu"] },
    { name := "Basketball Club",
      description := "Practice basketball skills and play friendly matches",
      schedule := "Tuesdays, 5:00 PM - 6:30 PM",
      max_participants := 15,
      participants := ["liam@mergington.edu", "ava@mergington.edu"] },
    { name := "Art Club",
      description := "Explore painting, drawing, and other visual arts",
      schedule := "Thursdays, 3:30 PM - 5:00 PM",
      max_participants := 16,
      participants := ["noah@mergington.edu", "isabella@mergington.edu"] },
    { name := "Drama Society",
      description := "Participate in school plays and drama workshops",
      schedule := "Mondays, 4:00 PM - 5:30 PM",
      max_participants := 20,
      participants := ["amelia@mergington.edu", "benjamin@mergington.edu"] },
    { name := "Math Olympiad",
      description := "Prepare for math competitions and solve challenging problems",
      schedule := "Wednesdays, 3:30 PM - 5:00 PM",
      max_participants := 10,
      participants := ["charlotte@mergington.edu", "elijah@mergington.edu"] },
    { name := "Debate Club",
      description := "Develop public speaking and argumentation skills",
      schedule := "Fridays, 4:00 PM - 5:30 PM",
      max_participants := 14,
      participants := ["jack@mergington.edu", "harper@mergington.edu"] } ]

/-- Successive `insert_one` calls: store each record with a fresh `_id`. -/
def insertAll : List Activity → Nat → Store
  | [], _ => []
  | a :: rest, i => ⟨i, a⟩ :: insertAll rest (i + 1)

/-- The startup hook `seed_data`: when `count_documents({})` is zero, insert
every record of `initial_activities`; otherwise do nothing. -/
def seed_data (s : Store) : Store :=
  if s.length = 0 then s ++ insertAll initial_activities 0 else s

/-- One incoming request, as dispatched by the four handlers. -/
inductive Op where
  | signup (activity_name email : String)
  | unregister (activity_name email : String)
  | list
  | seed

/-- The store after a single request has been handled, whether it succeeded
or failed (`GET /activities` only reads; `seed_data` runs the seeding). -/
def runOp (op : Op) (s : Store) : Store :=
  match op with
  | .signup n e => (signup_for_activity s n e).1
  | .unregister n e => (unregister_from_activity s n e).1
  | .list => s
  | .seed => seed_data s

/-- The data-model invariant of one record: the participant list never
exceeds the capacity and holds no duplicate email. -/
def Inv (a : Activity) : Prop :=
  a.participants.length ≤ a.max_participants ∧ a.participants.Nodup

/-- Every document of the store satisfies the record invariant. -/
def StoreInv (s : Store) : Prop := ∀ d ∈ s, Inv d.data

instance : DecidablePred Inv := fun a => by unfold Inv; infer_instance

instance : DecidablePred StoreInv := fun s => by
  unfold StoreInv; exact List.decidableBAll _ s

/-- Rewriting `participants` to itself leaves the document unchanged. -/
lemma update_participants_self (d : Stored) :
    { d with data := { d.data with participants := d.data.participants } } = d := rfl

/-- A document found by name belongs to the store and bears that name. -/
lemma findOne_mem {s : Store} {n : String} {d : Stored} (h : findOne s n = some d) :
    d ∈ s ∧ d.data.name = n := by
  induction s with
  | nil => simp [findOne] at h
  | cons hd tl ih =>
    by_cases hn : hd.data.name = n
    · simp [findOne, hn] at h
      subst h
      exact ⟨List.mem_cons_self _ _, hn⟩
    · simp [findOne, hn] at h
      rcases ih h with ⟨hmem, hname⟩
      exact ⟨List.mem_cons_of_mem _ hmem, hname⟩

/-- When no document matches, `updateFirst` leaves the store unchanged. -/
lemma updateFirst_of_none {s : Store} {n : String} (f : List String → List String)
    (h : findOne s n = none) : updateFirst s n f = s := by
  induction s with
  | nil => rfl
  | cons hd tl ih =>
    by_cases hn : hd.data.name = n
    · simp [findOne, hn] at h
    · simp [findOne, hn] at h
      simp [updateFirst, hn, ih h]

/-- Looking the name up after `updateFirst` yields the matched document with
its participants rewritten by `f`. -/
lemma findOne_updateFirst (s : Store) (n : String) (f : List String → List String) :
    findOne (updateFirst s n f) n =
      (findOne s n).map
        (fun d => { d with data := { d.data with participants := f d.data.participants } }) := by
  induction s with
  | nil => rfl
  | cons hd tl ih =>
    by_cases hn : hd.data.name = n
    · simp [updateFirst, findOne, hn]
    · simp [updateFirst, findOne, hn, ih]

/-- Two successive `updateFirst` calls on the same name compose. -/
lemma updateFirst_updateFirst (s : Store) (n : String) (f g : List String → List String) :
    updateFirst (updateFirst s n f) n g = updateFirst s n (fun p => g (f p)) := by
  induction s with
  | nil => rfl
  | cons hd tl ih =>
    by_cases hn : hd.data.name = n
    · simp [updateFirst, hn]
    · simp [updateFirst, hn, ih]

/-- When `f` fixes the matched document's participants, `updateFirst` is the
identity on the store. -/
lemma updateFirst_eq_self {s : Store} {n : String} {f : List String → List String}
    {d : Stored} (hd : findOne s n = some d)
    (hf : f d.data.participants = d.data.participants) : updateFirst s n f = s := by
  induction s with
  | nil => simp [findOne] at hd
  | cons hd0 tl ih =>
    by_cases hn : hd0.data.name = n
    · simp only [findOne, if_pos hn, Option.some.injEq] at hd
      subst hd
      simp only [updateFirst, if_pos hn]
      rw [hf, update_participants_self]
    · simp [findOne, hn] at hd
      simp [updateFirst, hn, ih hd]

/-- Every document of the updated store is either an untouched document of
the original store or the rewritten matched document. -/
lemma mem_updateFirst {s : Store} {n : String} {f : List String → List String}
    {x : Stored} (h : x ∈ updateFirst s n f) :
    x ∈ s ∨ ∃ d, findOne s n = some d ∧
      x = { d with data := { d.data with participants := f d.data.participants } } := by
  induction s with
  | nil => simp [updateFirst] at h
  | cons hd tl ih =>
    by_cases hn : hd.data.name = n
    · simp only [updateFirst, if_pos hn] at h
      rcases List.mem_cons.mp h with h | h
      · refine Or.inr ⟨hd, ?_, h⟩
        simp [findOne, hn]
      · exact Or.inl (List.mem_cons_of_mem _ h)
    · simp only [updateFirst, if_neg hn] at h
      rcases List.mem_cons.mp h with h | h
      · exact Or.inl (by simp [h])
      · rcases ih h with h' | ⟨d, hd, hx⟩
        · exact Or.inl (List.mem_cons_of_mem _ h')
        · refine Or.inr ⟨d, ?_, hx⟩
          simp [findOne, hn, hd]

/-- Filtering away an email that is not in the list changes nothing. -/
lemma filter_ne_of_not_mem {p : List String} {e : String} (h : e ∉ p) :
    p.filter (fun x => x ≠ e) = p := by
  apply List.filter_eq_self.mpr
  intro x hx
  have hxne : x ≠ e := fun hxe => h (hxe ▸ hx)
  simp [hxne]

/-- The email itself never survives the pull. -/
lemma not_mem_filter_ne (p : List String) (e : String) :
    e ∉ p.filter (fun x => x ≠ e) := by
  intro h
  have := (List.mem_filter.mp h).2
  simp at this

/-- When all three validations pass, the signup handler pushes the email
and succeeds. -/
lemma signup_ok {s : Store} {n e : String} {a : Stored} (hf : findOne s n = some a)
    (he : e ∉ a.data.participants)
    (hc : a.data.participants.length < a.data.max_participants) :
    signup_for_activity s n e =
      (updateFirst s n (fun p => p ++ [e]),
       Except.ok ("Signed up " ++ e ++ " for " ++ n)) := by
  have hge : ¬ a.data.participants.length ≥ a.data.max_participants := by omega
  simp [signup_for_activity, hf, he, hge, signupWrite, updateOnePush]

/-- A successful signup means the activity was found, the email was fresh
and there was room. -/
lemma signup_ok_inv {s : Store} {n e m : String}
    (h : (signup_for_activity s n e).2 = Except.ok m) :
    ∃ a, findOne s n = some a ∧ e ∉ a.data.participants ∧
      a.data.participants.length < a.data.max_participants := by
  cases hf : findOne s n with
  | none => simp [signup_for_activity, hf] at h
  | some a =>
    by_cases he : e ∈ a.data.participants
    · simp [signup_for_activity, hf, he] at h
    · by_cases hc : a.data.participants.length ≥ a.data.max_participants
      · simp [signup_for_activity, hf, he, hc] at h
      · exact ⟨a, rfl, he, by omega⟩

/-- When both validations pass, the unregister handler pulls the email and
succeeds. -/
lemma unregister_ok {s : Store} {n e : String} {a : Stored} (hf : findOne s n = some a)
    (he : e ∈ a.data.participants) :
    unregister_from_activity s n e =
      (updateFirst s n (fun p => p.filter (fun x => x ≠ e)),
       Except.ok ("Unregistered " ++ e ++ " from " ++ n)) := by
  simp [unregister_from_activity, hf, he, unregisterWrite, updateOnePull]

/-- A push that modifies nothing means no document matched, so the write
step fails with 500 and leaves the store as it was. -/
lemma signupWrite_conflict {s : Store} {n e : String}
    (h : (updateOnePush s n e).2 = 0) :
    signupWrite s n e = (s, Except.error ApiError.updateFailed) := by
  have hnone : findOne s n = none := by
    cases hf : findOne s n with
    | none => rfl
    | some d => simp [updateOnePush, hf] at h
  have h2 : updateOnePush s n e = (s, 0) := by
    simp [updateOnePush, hnone, updateFirst_of_none _ hnone]
  simp [signupWrite, h2]

/-- A pull that modifies nothing means no document matched or the matched
document did not contain the email; the write step fails with 500 and
leaves the store as it was. -/
lemma unregisterWrite_conflict {s : Store} {n e : String}
    (h : (updateOnePull s n e).2 = 0) :
    unregisterWrite s n e = (s, Except.error ApiError.updateFailed) := by
  have h2 : updateOnePull s n e = (s, 0) := by
    cases hf : findOne s n with
    | none => simp [updateOnePull, hf, updateFirst_of_none _ hf]
    | some d =>
      by_cases he : e ∈ d.data.participants
      · simp [updateOnePull, hf, he] at h
      · have hfix := updateFirst_eq_self (f := fun p => p.filter (fun x => x ≠ e)) hf
          (filter_ne_of_not_mem he)
        simp only [ne_eq, decide_not] at hfix
        simp [updateOnePull, hf, he, hfix]
  simp [unregisterWrite, h2]

/-- Predicate: `t` occurs as a contiguous substring of `s`. -/
def ContainsStr (s t : String) : Prop := ∃ u v, s = u ++ t ++ v

/-- The "Chess Club" document as seeded (storage id 0, first insert). -/
def chessDoc : Stored :=
  ⟨0, { name := "Chess Club",
        description := "Learn strategies and compete in chess tournaments",
        schedule := "Fridays, 3:30 PM - 5:00 PM",
        max_participants := 12,
        participants := ["michael@mergington.edu", "daniel@mergington.edu"] }⟩

/-- A test fixture: an activity already at capacity. -/
def fullDoc : Stored :=
  ⟨0, { name := "Knitting",
        description := "Knit scarves",
        schedule := "Mondays",
        max_participants := 2,
        participants := ["a@mergington.edu", "b@mergington.edu"] }⟩

/-- A test fixture: an activity whose participant list holds the same email
twice (a state the invariant forbids but the store could contain). -/
def dupDoc : Stored :=
  ⟨0, { name := "Choir",
        description := "Sing",
        schedule := "Tuesdays",
        max_participants := 5,
        participants := ["x@mergington.edu", "x@mergington.edu", "y@mergington.edu"] }⟩

/-- Inserting a fresh key into a Python dictionary appends the entry. -/
lemma dictInsert_of_not_mem {m : List (String × Activity)} {k : String} (v : Activity)
    (h : k ∉ m.map Prod.fst) : dictInsert m k v = m ++ [(k, v)] := by
  induction m with
  | nil => rfl
  | cons p rest ih =>
    rcases p with ⟨k', v'⟩
    simp only [List.map_cons, List.mem_cons] at h
    push_neg at h
    have hne : k' ≠ k := fun hh => h.1 hh.symm
    simp [dictInsert, hne, ih h.2]

/-- Folding the `GET /activities` loop over documents with pairwise distinct
names appends one entry per document. -/
lemma foldl_dictInsert (s : Store) :
    ∀ m : List (String × Activity),
      (m.map Prod.fst ++ s.map (fun d => d.data.name)).Nodup →
      s.foldl (fun m d => dictInsert m d.data.name d.data) m =
        m ++ s.map (fun d => (d.data.name, d.data)) := by
  induction s with
  | nil =>
    intro m h
    simp
  | cons d tl ih =>
    intro m h
    have hk : d.data.name ∉ m.map Prod.fst := by
      rw [List.nodup_append] at h
      exact fun hmem => h.2.2 hmem (List.mem_cons_self _ _)
    rw [List.foldl_cons, dictInsert_of_not_mem _ hk, ih]
    · simp
    · simpa [List.append_assoc] using h

/-- C1: for every store whose records each keep `len(participants) <=
max_participants` and a duplicate-free participant list, running any single
request (`signup_for_activity`, `unregister_from_activity`,
`get_activities` or `seed_data`) in isolation preserves both invariants for
every record. -/
theorem C1_invariants_preserved (op : Op) (s : Store) (h : StoreInv s) :
    StoreInv (runOp op s) := by
  cases op with
  | signup n e =>
    simp only [runOp]
    cases hf : findOne s n with
    | none => simpa [signup_for_activity, hf] using h
    | some a =>
      by_cases he : e ∈ a.data.participants
      · simpa [signup_for_activity, hf, he] using h
      · by_cases hc : a.data.participants.length ≥ a.data.max_participants
        · simpa [signup_for_activity, hf, he, hc] using h
        · have h1 : (signup_for_activity s n e).1 = updateFirst s n (fun p => p ++ [e]) := by
            rw [signup_ok hf he (by omega)]
          rw [h1]
          intro x hx
          rcases mem_updateFirst hx with hx | ⟨d, hd, hxd⟩
          · exact h x hx
          · rw [hf] at hd
            injection hd with hd
            subst hd
            subst hxd
            rcases h a (findOne_mem hf).1 with ⟨hlen, hnd⟩
            refine ⟨?_, ?_⟩
            · simp only [List.length_append, List.length_singleton]
              omega
            · simp [List.nodup_append, hnd, he]
  | unregister n e =>
    simp only [runOp]
    cases hf : findOne s n with
    | none => simpa [unregister_from_activity, hf] using h
    | some a =>
      by_cases he : e ∈ a.data.participants
      · have h1 : (unregister_from_activity s n e).1 =
            updateFirst s n (fun p => p.filter (fun x => x ≠ e)) := by
          rw [unregister_ok hf he]
        rw [h1]
        intro x hx
        rcases mem_updateFirst hx with hx | ⟨d, hd, hxd⟩
        · exact h x hx
        · rw [hf] at hd
          injection hd with hd
          subst hd
          subst hxd
          rcases h a (findOne_mem hf).1 with ⟨hlen, hnd⟩
          refine ⟨le_trans (List.length_filter_le _ _) hlen, hnd.filter _⟩
      · simpa [unregister_from_activity, hf, he] using h
  | list => exact h
  | seed =>
    simp only [runOp, seed_data]
    by_cases hs : s.length = 0
    · rw [if_pos hs]
      have hnil : s = [] := List.length_eq_zero.mp hs
      subst hnil
      decide
    · rw [if_neg hs]
      exact h

/-- Witness for C1 at the seeded store and a fresh signup. -/
theorem C1_witness :
    StoreInv (seed_data []) ∧
      StoreInv (runOp (Op.signup "Chess Club" "new@mergington.edu") (seed_data [])) :=
  ⟨by decide, C1_invariants_preserved _ _ (by decide)⟩

/-- C2: `signup_for_activity` yields 404 when no record matches, 400 when
the email is already registered, 400 when the activity is at or over
capacity, 500 whenever the push reports zero modified records (and then
the store is unchanged), and 200 with the confirmation in every other
case. -/
theorem C2_signup_statuses (s : Store) (n e : String) :
    (findOne s n = none →
      signup_for_activity s n e = (s, Except.error ApiError.notFound) ∧
        ApiError.notFound.status = 404) ∧
    (∀ a, findOne s n = some a → e ∈ a.data.participants →
      signup_for_activity s n e = (s, Except.error ApiError.alreadySignedUp) ∧
        ApiError.alreadySignedUp.status = 400) ∧
    (∀ a, findOne s n = some a → e ∉ a.data.participants →
      a.data.max_participants ≤ a.data.participants.length →
      signup_for_activity s n e = (s, Except.error ApiError.maxReached) ∧
        ApiError.maxReached.status = 400) ∧
    (∀ s2 : Store, (updateOnePush s2 n e).2 = 0 →
      signupWrite s2 n e = (s2, Except.error ApiError.updateFailed) ∧
        ApiError.updateFailed.status = 500) ∧
    (∀ a, findOne s n = some a → e ∉ a.data.participants →
      a.data.participants.length < a.data.max_participants →
      (signup_for_activity s n e).2 = Except.ok ("Signed up " ++ e ++ " for " ++ n)) := by
  refine ⟨?_, ?_, ?_, ?_, ?_⟩
  · intro hf
    exact ⟨by simp [signup_for_activity, hf], rfl⟩
  · intro a hf he
    exact ⟨by simp [signup_for_activity, hf, he], rfl⟩
  · intro a hf he hc
    have hge : a.data.participants.length ≥ a.data.max_participants := hc
    exact ⟨by simp [signup_for_activity, hf, he, hge], rfl⟩
  · intro s2 hz
    exact ⟨signupWrite_conflict hz, rfl⟩
  · intro a hf he hc
    rw [signup_ok hf he hc]

/-- Witness for C2: each branch exercised at a concrete store. -/
theorem C2_witness :
    (findOne ([] : Store) "Chess Club" = none ∧
      signup_for_activity ([] : Store) "Chess Club" "e@mergington.edu" =
        ([], Except.error ApiError.notFound)) ∧
    signup_for_activity (seed_data []) "Chess Club" "michael@mergington.edu" =
      (seed_data [], Except.error ApiError.alreadySignedUp) ∧
    signup_for_activity [fullDoc] "Knitting" "c@mergington.edu" =
      ([fullDoc], Except.error ApiError.maxReached) ∧
    ((updateOnePush ([] : Store) "Chess Club" "e@mergington.edu").2 = 0 ∧
      signupWrite ([] : Store) "Chess Club" "e@mergington.edu" =
        ([], Except.error ApiError.updateFailed)) ∧
    (signup_for_activity (seed_data []) "Chess Club" "new@mergington.edu").2 =
      Except.ok "Signed up new@mergington.edu for Chess Club" := by
  have h1 := C2_signup_statuses ([] : Store) "Chess Club" "e@mergington.edu"
  have h2 := C2_signup_statuses (seed_data []) "Chess Club" "michael@mergington.edu"
  have h3 := C2_signup_statuses [fullDoc] "Knitting" "c@mergington.edu"
  have h4 := C2_signup_statuses (seed_data []) "Chess Club" "new@mergington.edu"
  refine ⟨⟨rfl, (h1.1 rfl).1⟩, ?_, ?_, ⟨rfl, (h1.2.2.2.1 ([] : Store) rfl).1⟩, ?_⟩
  · exact (h2.2.1 chessDoc rfl (by decide)).1
  · exact (h3.2.2.1 fullDoc rfl (by decide) (by decide)).1
  · exact h4.2.2.2.2 chessDoc rfl (by decide) (by decide)

/-- C9: the duplicate-membership check runs before the capacity check, so
an activity that is at or over capacity and already contains the email
fails with "Student already signed up", never with the capacity error. -/
theorem C9_duplicate_check_first (s : Store) (n e : String) (a : Stored)
    (hf : findOne s n = some a) (he : e ∈ a.data.participants)
    (hc : a.data.max_participants ≤ a.data.participants.length) :
    (signup_for_activity s n e).2 = Except.error ApiError.alreadySignedUp ∧
      (signup_for_activity s n e).2 ≠ Except.error ApiError.maxReached ∧
      ApiError.alreadySignedUp.detail = "Student already signed up" := by
  refine ⟨by simp [signup_for_activity, hf, he], ?_, rfl⟩
  rw [show (signup_for_activity s n e).2 = Except.error ApiError.alreadySignedUp from
    by simp [signup_for_activity, hf, he]]
  intro hcontra
  exact absurd (Except.error.inj hcontra) (by decide)

/-- Witness for C9: an at-capacity activity that already holds the email. -/
theorem C9_witness :
    (signup_for_activity [fullDoc] "Knitting" "a@mergington.edu").2 =
        Except.error ApiError.alreadySignedUp ∧
      (signup_for_activity [fullDoc] "Knitting" "a@mergington.edu").2 ≠
        Except.error ApiError.maxReached ∧
      ApiError.alreadySignedUp.detail = "Student already signed up" :=
  C9_duplicate_check_first [fullDoc] "Knitting" "a@mergington.edu" fullDoc rfl
    (by decide) (by decide)

/-- C3: `unregister_from_activity` yields 404 when no record matches, 400
when the email is not registered, 500 whenever the pull reports zero
modified records (and then the store is unchanged); otherwise it succeeds
with a confirmation and the persisted record no longer contains the
email. -/
theorem C3_unregister_statuses (s : Store) (n e : String) :
    (findOne s n = none →
      unregister_from_activity s n e = (s, Except.error ApiError.notFound) ∧
        ApiError.notFound.status = 404) ∧
    (∀ a, findOne s n = some a → e ∉ a.data.participants →
      unregister_from_activity s n e = (s, Except.error ApiError.notRegistered) ∧
        ApiError.notRegistered.status = 400) ∧
    (∀ s2 : Store, (updateOnePull s2 n e).2 = 0 →
      unregisterWrite s2 n e = (s2, Except.error ApiError.updateFailed) ∧
        ApiError.updateFailed.status = 500) ∧
    (∀ a, findOne s n = some a → e ∈ a.data.participants →
      (unregister_from_activity s n e).2 =
          Except.ok ("Unregistered " ++ e ++ " from " ++ n) ∧
        findOne (unregister_from_activity s n e).1 n =
          some { a with data :=
                  { a.data with participants := a.data.participants.filter (fun x => x ≠ e) } } ∧
        e ∉ a.data.participants.filter (fun x => x ≠ e)) := by
  refine ⟨?_, ?_, ?_, ?_⟩
  · intro hf
    exact ⟨by simp [unregister_from_activity, hf], rfl⟩
  · intro a hf he
    exact ⟨by simp [unregister_from_activity, hf, he], rfl⟩
  · intro s2 hz
    exact ⟨unregisterWrite_conflict hz, rfl⟩
  · intro a hf he
    have hu := unregister_ok hf he
    have h1 : (unregister_from_activity s n e).1 =
        updateFirst s n (fun p => p.filter (fun x => x ≠ e)) := by rw [hu]
    have h2 : (unregister_from_activity s n e).2 =
        Except.ok ("Unregistered " ++ e ++ " from " ++ n) := by rw [hu]
    refine ⟨h2, ?_, not_mem_filter_ne _ _⟩
    rw [h1, findOne_updateFirst, hf]
    rfl

/-- Witness for C3: each branch exercised at a concrete store. -/
theorem C3_witness :
    (findOne ([] : Store) "Chess Club" = none ∧
      unregister_from_activity ([] : Store) "Chess Club" "e@mergington.edu" =
        ([], Except.error ApiError.notFound)) ∧
    unregister_from_activity (seed_data []) "Chess Club" "absent@mergington.edu" =
      (seed_data [], Except.error ApiError.notRegistered) ∧
    ((updateOnePull ([] : Store) "Chess Club" "e@mergington.edu").2 = 0 ∧
      unregisterWrite ([] : Store) "Chess Club" "e@mergington.edu" =
        ([], Except.error ApiError.updateFailed)) ∧
    ((unregister_from_activity (seed_data []) "Chess Club" "michael@mergington.edu").2 =
        Except.ok "Unregistered michael@mergington.edu from Chess Club" ∧
      (findOne (unregister_from_activity
          (seed_data []) "Chess Club" "michael@mergington.edu").1 "Chess Club").map
        (fun d => d.data.participants) = some ["daniel@mergington.edu"]) := by
  have h1 := C3_unregister_statuses ([] : Store) "Chess Club" "e@mergington.edu"
  have h2 := C3_unregister_statuses (seed_data []) "Chess Club" "absent@mergington.edu"
  have h3 := C3_unregister_statuses (seed_data []) "Chess Club" "michael@mergington.edu"
  refine ⟨⟨rfl, (h1.1 rfl).1⟩, ?_, ⟨rfl, (h1.2.2.1 ([] : Store) rfl).1⟩, ?_⟩
  · exact (h2.2.1 chessDoc rfl (by decide)).1
  · obtain ⟨hok, hfind, -⟩ := h3.2.2.2 chessDoc rfl (by decide)
    refine ⟨hok, ?_⟩
    rw [hfind]
    rfl

/-- C4: every failing request leaves the whole store exactly as it was:
both handlers return the original store on any error, and in particular the
500 branch of each write step returns the store the write saw. -/
theorem C4_errors_leave_store (s : Store) (n e : String) :
    (∀ err : ApiError, (signup_for_activity s n e).2 = Except.error err →
       (signup_for_activity s n e).1 = s) ∧
    (∀ err : ApiError, (unregister_from_activity s n e).2 = Except.error err →
       (unregister_from_activity s n e).1 = s) ∧
    (∀ s2 : Store, (signupWrite s2 n e).2 = Except.error ApiError.updateFailed →
       (signupWrite s2 n e).1 = s2) ∧
    (∀ s2 : Store, (unregisterWrite s2 n e).2 = Except.error ApiError.updateFailed →
       (unregisterWrite s2 n e).1 = s2) := by
  refine ⟨?_, ?_, ?_, ?_⟩
  · intro err herr
    cases hf : findOne s n with
    | none => simp [signup_for_activity, hf]
    | some a =>
      by_cases he : e ∈ a.data.participants
      · simp [signup_for_activity, hf, he]
      · by_cases hc : a.data.participants.length ≥ a.data.max_participants
        · simp [signup_for_activity, hf, he, hc]
        · rw [signup_ok hf he (by omega)] at herr
          simp at herr
  · intro err herr
    cases hf : findOne s n with
    | none => simp [unregister_from_activity, hf]
    | some a =>
      by_cases he : e ∈ a.data.participants
      · rw [unregister_ok hf he] at herr
        simp at herr
      · simp [unregister_from_activity, hf, he]
  · intro s2 herr
    by_cases hm : (updateOnePush s2 n e).2 = 0
    · rw [signupWrite_conflict hm]
    · simp [signupWrite, hm] at herr
  · intro s2 herr
    by_cases hm : (updateOnePull s2 n e).2 = 0
    · rw [unregisterWrite_conflict hm]
    · simp [unregisterWrite, hm] at herr

/-- Witness for C4: a duplicate signup and an absent-email unregister leave
the seeded store untouched. -/
theorem C4_witness :
    (signup_for_activity (seed_data []) "Chess Club" "michael@mergington.edu").1 =
        seed_data [] ∧
      (unregister_from_activity (seed_data []) "Chess Club" "absent@mergington.edu").1 =
        seed_data [] :=
  ⟨(C4_errors_leave_store (seed_data []) "Chess Club" "michael@mergington.edu").1
      ApiError.alreadySignedUp rfl,
   (C4_errors_leave_store (seed_data []) "Chess Club" "absent@mergington.edu").2.1
      ApiError.notRegistered rfl⟩

/-- C10: a successful unregister removes every occurrence of the email (the
pull filters the whole list), so the email is absent afterwards even when
the stored list contains it more than once. -/
theorem C10_pull_removes_all (s : Store) (n e : String) (a : Stored)
    (hf : findOne s n = some a) (he : e ∈ a.data.participants) :
    (unregister_from_activity s n e).2 =
        Except.ok ("Unregistered " ++ e ++ " from " ++ n) ∧
      findOne (unregister_from_activity s n e).1 n =
        some { a with data :=
                { a.data with participants := a.data.participants.filter (fun x => x ≠ e) } } ∧
      (∀ d, findOne (unregister_from_activity s n e).1 n = some d →
        e ∉ d.data.participants) := by
  have hu := unregister_ok hf he
  have h1 : (unregister_from_activity s n e).1 =
      updateFirst s n (fun p => p.filter (fun x => x ≠ e)) := by rw [hu]
  have h2 : (unregister_from_activity s n e).2 =
      Except.ok ("Unregistered " ++ e ++ " from " ++ n) := by rw [hu]
  have hfind : findOne (unregister_from_activity s n e).1 n =
      some { a with data :=
              { a.data with participants := a.data.participants.filter (fun x => x ≠ e) } } := by
    rw [h1, findOne_updateFirst, hf]
    rfl
  refine ⟨h2, hfind, ?_⟩
  intro d hd
  rw [hfind] at hd
  injection hd with hd
  subst hd
  exact not_mem_filter_ne _ _

/-- Witness for C10: the duplicated email vanishes entirely. -/
theorem C10_witness :
    (unregister_from_activity [dupDoc] "Choir" "x@mergington.edu").2 =
        Except.ok "Unregistered x@mergington.edu from Choir" ∧
      (findOne (unregister_from_activity [dupDoc] "Choir" "x@mergington.edu").1
        "Choir").map (fun d => d.data.participants) = some ["y@mergington.edu"] := by
  obtain ⟨hok, hfind, -⟩ :=
    C10_pull_removes_all [dupDoc] "Choir" "x@mergington.edu" dupDoc rfl (by decide)
  refine ⟨hok, ?_⟩
  rw [hfind]
  rfl

/-- C5: after any successful signup, unregistering the same email with no
interleaved request succeeds and returns the store to exactly its prior
state, in particular restoring the activity's participant sequence. -/
theorem C5_round_trip (s : Store) (n e m : String)
    (h : (signup_for_activity s n e).2 = Except.ok m) :
    ∃ m2, unregister_from_activity (signup_for_activity s n e).1 n e =
      (s, Except.ok m2) := by
  obtain ⟨a, hf, he, hc⟩ := signup_ok_inv h
  have h1 : (signup_for_activity s n e).1 = updateFirst s n (fun p => p ++ [e]) := by
    rw [signup_ok hf he hc]
  rw [h1]
  refine ⟨"Unregistered " ++ e ++ " from " ++ n, ?_⟩
  have hf1 : findOne (updateFirst s n (fun p => p ++ [e])) n =
      some { a with data := { a.data with participants := a.data.participants ++ [e] } } := by
    rw [findOne_updateFirst, hf]
    rfl
  have he1 : e ∈ ({ a with data :=
      { a.data with participants := a.data.participants ++ [e] } } : Stored).data.participants := by
    simp
  calc unregister_from_activity (updateFirst s n (fun p => p ++ [e])) n e
      = (updateFirst (updateFirst s n (fun p => p ++ [e])) n
           (fun p => p.filter (fun x => x ≠ e)),
         Except.ok ("Unregistered " ++ e ++ " from " ++ n)) := unregister_ok hf1 he1
    _ = (s, Except.ok ("Unregistered " ++ e ++ " from " ++ n)) := by
        rw [updateFirst_updateFirst]
        have hfix : ((a.data.participants ++ [e]).filter (fun x => x ≠ e)) =
            a.data.participants := by
          rw [List.filter_append, filter_ne_of_not_mem he]
          simp
        refine congrArg (fun t => (t, _)) ?_
        exact updateFirst_eq_self hf hfix

/-- Witness for C5 at the seeded store. -/
theorem C5_witness :
    ∃ m2, unregister_from_activity
        (signup_for_activity (seed_data []) "Chess Club" "new@mergington.edu").1
        "Chess Club" "new@mergington.edu" = (seed_data [], Except.ok m2) :=
  C5_round_trip (seed_data []) "Chess Club" "new@mergington.edu"
    "Signed up new@mergington.edu for Chess Club" rfl

/-- C6: from the empty store, `seed_data` inserts exactly the fixed initial
set, after which `get_activities` returns that set: 9 named activities with
"Chess Club" holding 2 participants and capacity 12; from any non-empty
store, `seed_data` inserts nothing. -/
theorem C6_seeding :
    seed_data [] = insertAll initial_activities 0 ∧
    get_activities (seed_data []) = initial_activities.map (fun a => (a.name, a)) ∧
    (get_activities (seed_data [])).length = 9 ∧
    (get_activities (seed_data [])).map Prod.fst =
      ["Chess Club", "Programming Class", "Gym Class", "Soccer Team", "Basketball Club",
       "Art Club", "Drama Society", "Math Olympiad", "Debate Club"] ∧
    (List.lookup "Chess Club" (get_activities (seed_data []))).map
      (fun a => (a.participants.length, a.max_participants)) = some (2, 12) ∧
    (∀ s : Store, s ≠ [] → seed_data s = s) := by
  refine ⟨rfl, rfl, rfl, rfl, rfl, ?_⟩
  intro s hs
  simp only [seed_data]
  rw [if_neg (fun h => hs (List.length_eq_zero.mp h))]

/-- Witness for C6 at a concrete non-empty store. -/
theorem C6_witness : [chessDoc] ≠ ([] : Store) ∧ seed_data [chessDoc] = [chessDoc] :=
  ⟨by decide, C6_seeding.2.2.2.2.2 [chessDoc] (by decide)⟩

/-- C7: a successful signup persists exactly the prior participants with the
email appended (length grows by one) and returns a confirmation containing
the activity name and the email. -/
theorem C7_signup_appends (s : Store) (n e : String) (a : Stored)
    (hf : findOne s n = some a) (he : e ∉ a.data.participants)
    (hc : a.data.participants.length < a.data.max_participants) :
    ∃ m, (signup_for_activity s n e).2 = Except.ok m ∧
      findOne (signup_for_activity s n e).1 n =
        some { a with data :=
                { a.data with participants := a.data.participants ++ [e] } } ∧
      (a.data.participants ++ [e]).length = a.data.participants.length + 1 ∧
      ContainsStr m n ∧ ContainsStr m e := by
  have hu := signup_ok hf he hc
  have h1 : (signup_for_activity s n e).1 = updateFirst s n (fun p => p ++ [e]) := by
    rw [hu]
  have h2 : (signup_for_activity s n e).2 =
      Except.ok ("Signed up " ++ e ++ " for " ++ n) := by rw [hu]
  refine ⟨"Signed up " ++ e ++ " for " ++ n, h2, ?_, by simp, ?_, ?_⟩
  · rw [h1, findOne_updateFirst, hf]
    rfl
  · refine ⟨"Signed up " ++ e ++ " for ", "", ?_⟩
    rw [String.append_empty]
  · refine ⟨"Signed up ", " for " ++ n, ?_⟩
    rw [String.append_assoc]

/-- Witness for C7: the Chess Club scenario from the spec, participants
growing from 2 to 3. -/
theorem C7_witness :
    (∃ m, (signup_for_activity (seed_data []) "Chess Club" "new@mergington.edu").2 =
        Except.ok m ∧ ContainsStr m "Chess Club" ∧ ContainsStr m "new@mergington.edu") ∧
    (findOne (signup_for_activity (seed_data []) "Chess Club" "new@mergington.edu").1
        "Chess Club").map (fun d => d.data.participants.length) = some 3 ∧
    chessDoc.data.participants.length = 2 ∧ chessDoc.data.max_participants = 12 := by
  obtain ⟨m, h1, h2, h3, h4, h5⟩ :=
    C7_signup_appends (seed_data []) "Chess Club" "new@mergington.edu" chessDoc rfl
      (by decide) (by decide)
  refine ⟨⟨m, h1, h4, h5⟩, ?_, by decide, by decide⟩
  rw [h2]
  rfl

/-- C8: `GET /activities` reads the store without changing it, returns the
empty mapping on the empty store, and on a store with pairwise distinct
names returns each stored record keyed by its name with only the `_id`
dropped. -/
theorem C8_list_activities (s : Store)
    (h : (s.map (fun d => d.data.name)).Nodup) :
    get_activities s = s.map (fun d => (d.data.name, d.data)) ∧
    get_activities ([] : Store) = [] ∧
    runOp Op.list s = s := by
  refine ⟨?_, rfl, rfl⟩
  have hfold := foldl_dictInsert s [] (by simpa using h)
  simpa [get_activities] using hfold

/-- Witness for C8 at a concrete two-document store. -/
theorem C8_witness :
    (([chessDoc, fullDoc] : Store).map (fun d => d.data.name)).Nodup ∧
    get_activities [chessDoc, fullDoc] =
      [("Chess Club", chessDoc.data), ("Knitting", fullDoc.data)] := by
  refine ⟨by decide, ?_⟩
  have h := (C8_list_activities [chessDoc, fullDoc] (by decide)).1
  rw [h]
  rfl

end Mergington
